import Mathlib

/-!
Verification development for the Checkm8 chess engine
(src/chess_game/pieces.py, board.py, evaluator.py, ai.py).

Coordinates are modelled as Lean Int (Python int).  Fallible code is
modelled with Option: a result of none models a raised Python exception.
In particular, board.py invokes MoveGenerator.get_moves with a keyword
argument skip_castling=True (board.py lines 296 and 356) although
pieces.py defines get_moves with only (board, row, col); in Python such a
call raises TypeError before the callee body runs.  Every function whose
execution can reach one of those two call sites therefore returns Option,
with none produced exactly where the TypeError is raised.
-/

namespace Checkm8

/-- Colors of pieces (pieces.py, class Color). -/
inductive Color where
  | WHITE
  | BLACK
deriving DecidableEq

/-- Piece kinds (pieces.py, class PieceType). -/
inductive PieceType where
  | PAWN
  | ROOK
  | KNIGHT
  | BISHOP
  | QUEEN
  | KING
deriving DecidableEq

/-- A chess piece (pieces.py, class Piece): kind, color, has-moved flag. -/
structure Piece where
  type : PieceType
  color : Color
  has_moved : Bool
deriving DecidableEq

/-- Piece.VALUES (pieces.py): material values used by Piece.get_value and
the evaluator. -/
def piece_value : PieceType → Int
  | .PAWN => 100
  | .KNIGHT => 320
  | .BISHOP => 330
  | .ROOK => 500
  | .QUEEN => 900
  | .KING => 20000

/-- Color.BLACK if color == Color.WHITE else Color.WHITE (inlined
throughout board.py / ai.py / evaluator.py). -/
def opponent : Color → Color
  | .WHITE => .BLACK
  | .BLACK => .WHITE

/-- The board state (board.py, class Board).  castling_rights is the dict
{WHITE: (kingside, queenside), BLACK: (kingside, queenside)} stored as two
pairs.  move_history records (from_row, from_col, to_row, to_col,
captured). -/
structure Board where
  grid : List (List (Option Piece))
  current_turn : Color
  move_history : List (Int × Int × Int × Int × Option Piece)
  en_passant_target : Option (Int × Int)
  castle_w : Bool × Bool
  castle_b : Bool × Bool
deriving DecidableEq

/-- The castling_rights dict lookup: castling_rights[color]. -/
def castling_rights (b : Board) : Color → Bool × Bool
  | .WHITE => b.castle_w
  | .BLACK => b.castle_b

/-- castling_rights[color] = r (dict entry assignment). -/
def set_castling_rights (b : Board) (c : Color) (r : Bool × Bool) : Board :=
  match c with
  | .WHITE => { b with castle_w := r }
  | .BLACK => { b with castle_b := r }

/-- Board.is_valid_position (board.py line 48). -/
def is_valid_position (row col : Int) : Prop :=
  0 ≤ row ∧ row < 8 ∧ 0 ≤ col ∧ col < 8

instance (row col : Int) : Decidable (is_valid_position row col) := by
  unfold is_valid_position; infer_instance

/-- Raw grid access self.board[row][col].  All reads in the translated
code are either guarded by explicit 0 <= x < 8 range checks or reached
only with validated coordinates, so the out-of-range fallback none is
never observed along those paths; it also makes this function coincide
with the bounds-checked Board.get_piece (board.py line 42). -/
def cell (g : List (List (Option Piece))) (row col : Int) : Option Piece :=
  if is_valid_position row col then (g.getD row.toNat []).getD col.toNat none
  else none

/-- Board.get_piece (board.py line 42): bounds-checked lookup. -/
def get_piece (b : Board) (row col : Int) : Option Piece :=
  cell b.grid row col

/-- Grid update self.board[row][col] = v (coordinates in range along all
translated paths). -/
def set_cell (g : List (List (Option Piece))) (row col : Int)
    (v : Option Piece) : List (List (Option Piece)) :=
  if is_valid_position row col then
    g.set row.toNat ((g.getD row.toNat []).set col.toNat v)
  else g

/-- rook.has_moved = True after relocation (applied to an optional piece,
mirroring the `if rook is not None` guard). -/
def mark_moved : Option Piece → Option Piece
  | some p => some { p with has_moved := true }
  | none => none

/-! ## MoveGenerator (pieces.py) -/

/-- MoveGenerator.get_pawn_moves (pieces.py lines 61-84): single push,
double push from the start rank, and diagonal captures onto occupied
squares.  No en-passant destination is ever emitted (the diagonal
requires `target is not None`). -/
def get_pawn_moves (b : Board) (row col : Int) (color : Color) :
    List (Int × Int) :=
  let direction : Int := if color = Color.WHITE then -1 else 1
  let start_row : Int := if color = Color.WHITE then 6 else 1
  let forward :=
    if 0 ≤ row + direction ∧ row + direction < 8 ∧
        cell b.grid (row + direction) col = none then
      (row + direction, col) ::
        (if row = start_row ∧ cell b.grid (row + 2 * direction) col = none then
          [(row + 2 * direction, col)]
        else [])
    else []
  let captures := ([-1, 1] : List Int).filterMap fun dc =>
    if 0 ≤ row + direction ∧ row + direction < 8 ∧
        0 ≤ col + dc ∧ col + dc < 8 then
      match cell b.grid (row + direction) (col + dc) with
      | some target => if target.color ≠ color
          then some (row + direction, col + dc) else none
      | none => none
    else none
  forward ++ captures

/-- One sliding direction of get_rook_moves / get_bishop_moves: the
`for i in range(1, 8)` loop with its break conditions, fuel-indexed. -/
def ray_go (b : Board) (color : Color) (row col dr dc : Int) :
    Nat → Int → List (Int × Int)
  | 0, _ => []
  | k + 1, i =>
    let nr := row + dr * i
    let nc := col + dc * i
    if is_valid_position nr nc then
      match cell b.grid nr nc with
      | none => (nr, nc) :: ray_go b color row col dr dc k (i + 1)
      | some target => if target.color ≠ color then [(nr, nc)] else []
    else []

/-- All destinations along one ray (i runs 1..7). -/
def ray_moves (b : Board) (color : Color) (row col dr dc : Int) :
    List (Int × Int) :=
  ray_go b color row col dr dc 7 1

/-- MoveGenerator.get_rook_moves (pieces.py lines 86-107). -/
def get_rook_moves (b : Board) (row col : Int) (color : Color) :
    List (Int × Int) :=
  ([((0 : Int), (1 : Int)), (0, -1), (1, 0), (-1, 0)]).flatMap fun d =>
    ray_moves b color row col d.1 d.2

/-- The shared body of the knight / king fixed-offset loops: destination
accepted when in range and empty or opposing. -/
def step_moves (b : Board) (row col : Int) (color : Color)
    (offsets : List (Int × Int)) : List (Int × Int) :=
  offsets.filterMap fun d =>
    let nr := row + d.1
    let nc := col + d.2
    if is_valid_position nr nc then
      match cell b.grid nr nc with
      | none => some (nr, nc)
      | some target => if target.color ≠ color then some (nr, nc) else none
    else none

/-- MoveGenerator.get_knight_moves (pieces.py lines 109-122). -/
def get_knight_moves (b : Board) (row col : Int) (color : Color) :
    List (Int × Int) :=
  step_moves b row col color
    [(-2, -1), (-2, 1), (-1, -2), (-1, 2), (1, -2), (1, 2), (2, -1), (2, 1)]

/-- MoveGenerator.get_bishop_moves (pieces.py lines 124-145). -/
def get_bishop_moves (b : Board) (row col : Int) (color : Color) :
    List (Int × Int) :=
  ([((1 : Int), (1 : Int)), (1, -1), (-1, 1), (-1, -1)]).flatMap fun d =>
    ray_moves b color row col d.1 d.2

/-- MoveGenerator.get_queen_moves (pieces.py lines 147-152): rook moves
extended with bishop moves. -/
def get_queen_moves (b : Board) (row col : Int) (color : Color) :
    List (Int × Int) :=
  get_rook_moves b row col color ++ get_bishop_moves b row col color

/-- MoveGenerator.get_king_moves (pieces.py lines 154-167): exactly the
eight one-square offsets.  The function takes no skip-castling flag and
emits no castling destination. -/
def get_king_moves (b : Board) (row col : Int) (color : Color) :
    List (Int × Int) :=
  step_moves b row col color
    [(-1, -1), (-1, 0), (-1, 1), (0, -1), (0, 1), (1, -1), (1, 0), (1, 1)]

/-- MoveGenerator.get_moves (pieces.py lines 169-188): dispatch on the
piece type at the square; empty square yields [].  Signature is
(board, row, col) only — there is no skip_castling parameter. -/
def get_moves (b : Board) (row col : Int) : List (Int × Int) :=
  match cell b.grid row col with
  | none => []
  | some piece =>
    match piece.type with
    | .PAWN => get_pawn_moves b row col piece.color
    | .ROOK => get_rook_moves b row col piece.color
    | .KNIGHT => get_knight_moves b row col piece.color
    | .BISHOP => get_bishop_moves b row col piece.color
    | .QUEEN => get_queen_moves b row col piece.color
    | .KING => get_king_moves b row col piece.color

/-! ## Board operations (board.py) -/

/-- The row-major square enumeration `for row in range(8): for col in
range(8)` used by every full-board scan. -/
def coords : List (Int × Int) :=
  ([0, 1, 2, 3, 4, 5, 6, 7] : List Int).flatMap fun r =>
    ([0, 1, 2, 3, 4, 5, 6, 7] : List Int).map fun c => (r, c)

/-- Board.find_king (board.py lines 280-287): first king of the color in
row-major order, none if absent. -/
def find_king (b : Board) (color : Color) : Option (Int × Int) :=
  coords.findSome? fun rc =>
    match cell b.grid rc.1 rc.2 with
    | some p => if p.type = .KING ∧ p.color = color then some rc else none
    | none => none

/-- Whether any piece of the given color is on the board (the condition
under which the scans in is_in_check / _is_square_under_attack reach
their MoveGenerator.get_moves(..., skip_castling=True) call). -/
def has_piece_of_color (b : Board) (c : Color) : Bool :=
  coords.any fun rc =>
    match cell b.grid rc.1 rc.2 with
    | some p => p.color == c
    | none => false

/-- Board.is_in_check (board.py lines 341-360).  With no king the
function returns False at once.  Otherwise the scan raises TypeError at
the first opponent piece, because it calls
MoveGenerator.get_moves(self, row, col, skip_castling=True) and
pieces.get_moves accepts no skip_castling keyword; with no opponent
piece at all the scan completes and returns False. -/
def is_in_check (b : Board) (color : Color) : Option Bool :=
  match find_king b color with
  | none => some false
  | some _ =>
    if has_piece_of_color b (opponent color) then none else some false

/-- Board._is_square_under_attack (board.py lines 289-299): the scan
raises TypeError at the first piece of the attacker color (same
skip_castling=True call), else completes with False. -/
def is_square_under_attack (b : Board) (row col : Int)
    (attacker_color : Color) : Option Bool :=
  if has_piece_of_color b attacker_color then none else some false

/-- The castling-rights update of _apply_move_directly lines 126-135 and
make_move lines 252-263 (the mover's side): a king move clears both
rights, a rook move from column 7 / 0 clears that side's right. -/
def update_rights_for_mover (p : Piece) (from_col : Int)
    (r : Bool × Bool) : Bool × Bool :=
  if p.type = .KING then (false, false)
  else if p.type = .ROOK then
    (if from_col = 7 then (false, r.2)
     else if from_col = 0 then (r.1, false)
     else r)
  else r

/-- The rook-capture rights update of make_move lines 264-270 (applied to
the captured piece's color, keyed on to_col). -/
def update_rights_for_captured (captured : Option Piece) (to_col : Int)
    (r : Bool × Bool) : Bool × Bool :=
  match captured with
  | some cp =>
    if cp.type = .ROOK then
      (if to_col = 7 then (false, r.2)
       else if to_col = 0 then (r.1, false)
       else r)
    else r
  | none => r

/-- The mover's castling-rights assignment
self.castling_rights[piece.color] = ... (board.py lines 126-135 /
252-263), applied to a board whose rights entry for the mover still
holds its pre-move value. -/
def apply_mover_rights (b : Board) (p : Piece) (from_col : Int) : Board :=
  set_castling_rights b p.color
    (update_rights_for_mover p from_col (castling_rights b p.color))

/-- The captured-rook rights assignment (board.py lines 264-270). -/
def apply_captured_rights (b : Board) (captured : Option Piece)
    (to_col : Int) : Board :=
  match captured with
  | some cp => set_castling_rights b cp.color
      (update_rights_for_captured captured to_col (castling_rights b cp.color))
  | none => b

/-- The rook relocation of a castling king move (board.py lines 72-90 and
190-211): board[king_row][5] = board[king_row][7]; board[king_row][7] =
None (kingside), or columns 0 → 3 (queenside), marking the rook moved. -/
def castling_rook_step (b : Board) (piece : Piece) (from_row from_col
    to_col : Int) : List (List (Option Piece)) :=
  let king_row : Int := if piece.color = Color.WHITE then 7 else 0
  if piece.type = .KING ∧ from_col = 4 ∧ from_row = king_row then
    if to_col = 6 then
      set_cell (set_cell b.grid king_row 5 (mark_moved (cell b.grid king_row 7)))
        king_row 7 none
    else if to_col = 2 then
      set_cell (set_cell b.grid king_row 3 (mark_moved (cell b.grid king_row 0)))
        king_row 0 none
    else b.grid
  else b.grid

/-- The pawn-promotion rebinding of `piece` (board.py lines 101-107 and
226-232): on the farthest rank the pawn becomes a fresh piece of the
requested kind (Queen when unspecified) with has_moved True. -/
def promote_step (piece : Piece) (to_row : Int)
    (promotion_piece : Option PieceType) : Piece :=
  if piece.type = .PAWN ∧
      ((piece.color = Color.WHITE ∧ to_row = 0) ∨
       (piece.color = Color.BLACK ∧ to_row = 7)) then
    { type := promotion_piece.getD .QUEEN, color := piece.color,
      has_moved := true }
  else piece

/-- The new en_passant_target (board.py lines 116-124 and 240-250): set
behind a pawn double-step, cleared otherwise.  `piece` here is the
possibly rebound (promoted) piece, exactly as in the Python. -/
def new_en_passant_target (piece : Piece) (from_row from_col to_row : Int) :
    Option (Int × Int) :=
  let direction : Int := if piece.color = Color.WHITE then -1 else 1
  let start_row : Int := if piece.color = Color.WHITE then 6 else 1
  if piece.type = .PAWN ∧ from_row = start_row ∧
      to_row = from_row + 2 * direction then
    some (from_row + direction, from_col)
  else none

/-- Board._apply_move_directly (board.py lines 66-138): unvalidated move
application.  No history entry is appended and no captured-rook rights
update happens here (unlike make_move). -/
def apply_move_directly (b : Board) (from_row from_col to_row to_col : Int)
    (promotion_piece : Option PieceType) : Board :=
  match cell b.grid from_row from_col with
  | none => b
  | some piece =>
    let g1 := castling_rook_step b piece from_row from_col to_col
    let g2 :=
      if piece.type = .PAWN ∧ b.en_passant_target = some (to_row, to_col) then
        let direction : Int := if piece.color = Color.WHITE then -1 else 1
        set_cell g1 (to_row - direction) to_col none
      else g1
    let piece2 := promote_step piece to_row promotion_piece
    -- board[to] = piece; board[from] = None; piece.has_moved = True
    let g3 := set_cell (set_cell g2 to_row to_col
        (some { piece2 with has_moved := true })) from_row from_col none
    let b2 : Board :=
      { b with
        grid := g3
        en_passant_target := new_en_passant_target piece2 from_row from_col to_row
        current_turn := opponent b.current_turn }
    apply_mover_rights b2 piece2 from_col

/-- Board.is_legal_move (board.py lines 140-147): apply on a deep copy
(promotion defaulted) and negate is_in_check. -/
def is_legal_move (b : Board) (from_row from_col to_row to_col : Int)
    (color : Color) : Option Bool :=
  (is_in_check (apply_move_directly b from_row from_col to_row to_col none)
    color).map fun chk => !chk

/-- Board.make_move_copy (board.py lines 149-153): deepcopy, apply the
move to the copy, return it.  The first component is the receiver's
state after the call (untouched, since _apply_move_directly runs on the
deep copy), the second is the returned new board. -/
def make_move_copy (b : Board) (from_row from_col to_row to_col : Int)
    (promotion_piece : Option PieceType) : Board × Board :=
  (b, apply_move_directly b from_row from_col to_row to_col promotion_piece)

/-- Board.get_all_moves (board.py lines 52-64): pseudo-legal candidates of
every friendly piece filtered through is_legal_move (which can raise). -/
def get_all_moves (b : Board) (color : Color) :
    Option (List (Int × Int × Int × Int)) :=
  coords.foldlM (fun acc rc =>
    match cell b.grid rc.1 rc.2 with
    | some piece =>
      if piece.color = color then
        (get_moves b rc.1 rc.2).foldlM (fun acc2 d =>
          (is_legal_move b rc.1 rc.2 d.1 d.2 color).map fun ok =>
            if ok then acc2 ++ [(rc.1, rc.2, d.1, d.2)] else acc2) acc
      else pure acc
    | none => pure acc) []

/-- The mutation part of Board.make_move (board.py lines 190-278), run
after all validation has passed: rook relocation for castling, en
passant removal, promotion, relocation, en-passant-target and
castling-rights updates (mover and captured rook), history append, turn
flip. -/
def make_move_apply (b : Board) (piece : Piece)
    (from_row from_col to_row to_col : Int)
    (promotion_piece : Option PieceType) : Board :=
  let g1 := castling_rook_step b piece from_row from_col to_col
  let ep_capture : Bool :=
    piece.type = .PAWN ∧ b.en_passant_target = some (to_row, to_col)
  let direction : Int := if piece.color = Color.WHITE then -1 else 1
  let captured : Option Piece :=
    if ep_capture then cell g1 (to_row - direction) to_col
    else cell g1 to_row to_col
  let g2 := if ep_capture then set_cell g1 (to_row - direction) to_col none
    else g1
  let piece2 := promote_step piece to_row promotion_piece
  let g3 := set_cell (set_cell g2 to_row to_col
      (some { piece2 with has_moved := true })) from_row from_col none
  let b2 : Board :=
    { b with
      grid := g3
      en_passant_target := new_en_passant_target piece2 from_row from_col to_row }
  let b3 := apply_mover_rights b2 piece2 from_col
  let b4 := apply_captured_rights b3 captured to_col
  { b4 with
    move_history := b.move_history ++
      [(from_row, from_col, to_row, to_col, captured)]
    current_turn := opponent b.current_turn }

/-- Board.make_move (board.py lines 163-278).  Returns some (flag,
resulting state); none models the TypeError raised inside is_legal_move
→ is_in_check.  Every early-rejection path leaves the board unchanged. -/
def make_move (b : Board) (from_row from_col to_row to_col : Int)
    (promotion_piece : Option PieceType) : Option (Bool × Board) :=
  if ¬ is_valid_position from_row from_col ∨
      ¬ is_valid_position to_row to_col then some (false, b)
  else
    match cell b.grid from_row from_col with
    | none => some (false, b)
    | some piece =>
      if piece.color ≠ b.current_turn then some (false, b)
      else if (to_row, to_col) ∉ get_moves b from_row from_col then
        some (false, b)
      else
        match is_legal_move b from_row from_col to_row to_col piece.color with
        | none => none
        | some false => some (false, b)
        | some true =>
          some (true,
            make_move_apply b piece from_row from_col to_row to_col
              promotion_piece)

/-! ## Evaluator (evaluator.py) -/

/-- The four central squares (evaluator.py CENTER_SQUARES, also used by
the AI move ordering). -/
def center_squares : List (Int × Int) := [(3, 3), (3, 4), (4, 3), (4, 4)]

/-- The twelve extended-center squares (evaluator.py EXTENDED_CENTER). -/
def extended_center : List (Int × Int) :=
  [(2, 2), (2, 3), (2, 4), (2, 5),
   (3, 2), (3, 5), (4, 2), (4, 5),
   (5, 2), (5, 3), (5, 4), (5, 5)]

/-- Evaluator._material_balance (evaluator.py lines 66-81): own piece
values minus opponent piece values. -/
def material_balance (b : Board) (color : Color) : Int :=
  coords.foldl (fun acc rc =>
    match cell b.grid rc.1 rc.2 with
    | some p => if p.color = color then acc + piece_value p.type
        else acc - piece_value p.type
    | none => acc) 0

/-- Evaluator.evaluate (evaluator.py lines 27-46): material balance, plus
the own-legal-move count, minus 50 when in check.  Both get_all_moves and
is_in_check can raise (none). -/
def evaluate (b : Board) (color : Color) : Option Int :=
  let score := material_balance b color
  match get_all_moves b color with
  | none => none
  | some own_moves =>
    match is_in_check b color with
    | none => none
    | some chk =>
      some (score + (own_moves.length : Int) - (if chk then 50 else 0))

/-- Evaluator._piece_mobility (evaluator.py lines 83-89): own minus
opponent legal-move counts. -/
def piece_mobility (b : Board) (color : Color) : Option Int :=
  match get_all_moves b color with
  | none => none
  | some own_moves =>
    match get_all_moves b (opponent color) with
    | none => none
    | some opponent_moves =>
      some ((own_moves.length : Int) - (opponent_moves.length : Int))

/-- Evaluator._center_control (evaluator.py lines 91-118): +2 per
occupied central square, +1 per occupied extended-center square, and +1
per own piece with at least one pseudo-legal move into the center. -/
def center_control (b : Board) (color : Color) : Int :=
  let occ_center := (center_squares.filter fun rc =>
    match cell b.grid rc.1 rc.2 with
    | some p => p.color == color
    | none => false).length
  let occ_extended := (extended_center.filter fun rc =>
    match cell b.grid rc.1 rc.2 with
    | some p => p.color == color
    | none => false).length
  let attack_center := (coords.filter fun rc =>
    match cell b.grid rc.1 rc.2 with
    | some p =>
      p.color == color &&
        (get_moves b rc.1 rc.2).any fun d => center_squares.contains (d.1, d.2)
    | none => false).length
  2 * occ_center + occ_extended + attack_center

/-- Evaluator._king_safety (evaluator.py lines 120-153): -1000 sentinel
when the king is missing; else -50 when in check (which can raise), +5
per adjacent friendly piece, -10 for a forward king. -/
def king_safety (b : Board) (color : Color) : Option Int :=
  match find_king b color with
  | none => some (-1000)
  | some kp =>
    match is_in_check b color with
    | none => none
    | some chk =>
      let base : Int := if chk then -50 else 0
      let friendly : Int :=
        ((([(-1, -1), (-1, 0), (-1, 1), (0, -1), (0, 1), (1, -1), (1, 0),
            (1, 1)] : List (Int × Int)).filter fun d =>
          match get_piece b (kp.1 + d.1) (kp.2 + d.2) with
          | some p => p.color == color
          | none => false).length : Int)
      let forward : Int :=
        if color = Color.WHITE ∧ kp.1 < 4 then -10
        else if color = Color.BLACK ∧ kp.1 > 3 then -10
        else 0
      some (base + friendly * 5 + forward)

/-! ## Search engine (ai.py) -/

/-- Search scores: Python floats restricted to the values the search
actually produces — integers from the evaluator and float('-inf') /
float('inf') for mate / initial bounds.  Only comparisons are performed
on them. -/
inductive Score where
  | negInf
  | fin (v : Int)
  | posInf
deriving DecidableEq

/-- The <= comparison on scores. -/
def score_le : Score → Score → Bool
  | .negInf, _ => true
  | _, .posInf => true
  | .fin a, .fin b => a ≤ b
  | .posInf, .fin _ => false
  | .posInf, .negInf => false
  | .fin _, .negInf => false

/-- The < comparison on scores. -/
def score_lt (a b : Score) : Bool := !(score_le b a)

/-- max on scores (Python max). -/
def score_max (a b : Score) : Score := if score_le a b then b else a

/-- A move as produced by get_all_moves. -/
abbrev MoveT := Int × Int × Int × Int

/-- ChessAI state (ai.py lines 9-23): the constructor stores
max(1, depth) and the color.  The nodes_evaluated diagnostics counter
(read by nothing in the algorithm) is not modelled. -/
structure ChessAI where
  depth : Int
  color : Color
deriving DecidableEq

/-- ChessAI.__init__ (ai.py lines 12-23): self.depth = max(1, depth). -/
def chess_ai_init (depth : Int) (color : Color) : ChessAI :=
  { depth := max 1 depth, color := color }

/-- The move_score closure of ChessAI._order_moves (ai.py lines 97-118):
10000 + captured value for captures, +5000 when the move gives check
(probed on a cloned board — this is_in_check can raise), +100 for a
central destination. -/
def move_score (b : Board) (m : MoveT) : Option Int :=
  let capture_score : Int :=
    match get_piece b m.2.2.1 m.2.2.2 with
    | some target => 10000 + piece_value target.type
    | none => 0
  let test_board := (make_move_copy b m.1 m.2.1 m.2.2.1 m.2.2.2 (some .QUEEN)).2
  match is_in_check test_board (opponent b.current_turn) with
  | none => none
  | some chk =>
    let check_score : Int := if chk then 5000 else 0
    let center_score : Int :=
      if center_squares.contains (m.2.2.1, m.2.2.2) then 100 else 0
    some (capture_score + check_score + center_score)

/-- Stable insertion used to model Python sorted(key=move_score,
reverse=True): a later element is placed after every earlier element
whose score is greater or equal, preserving the original order of
ties. -/
def insert_desc (x : MoveT × Int) : List (MoveT × Int) → List (MoveT × Int)
  | [] => [x]
  | y :: rest => if y.2 ≥ x.2 then y :: insert_desc x rest else x :: y :: rest

/-- Stable descending sort by score. -/
def sort_desc (l : List (MoveT × Int)) : List (MoveT × Int) :=
  l.foldl (fun acc x => insert_desc x acc) []

/-- ChessAI._order_moves (ai.py lines 93-121). -/
def order_moves (b : Board) (moves : List MoveT) : Option (List MoveT) :=
  match moves.mapM (fun m => (move_score b m).map fun s => (m, s)) with
  | none => none
  | some scored => some ((sort_desc scored).map fun ms => ms.1)

/-- One maximizing sibling loop of ChessAI._minimax (ai.py lines
167-178), with the recursive call abstracted: updates max_eval and
alpha, breaking when beta <= alpha. -/
def ab_max_loop (recurse : Board → Score → Score → Option Score)
    (b : Board) : List MoveT → Score → Score → Score → Option Score
  | [], max_eval, _, _ => some max_eval
  | m :: rest, max_eval, alpha, beta =>
    let nb := (make_move_copy b m.1 m.2.1 m.2.2.1 m.2.2.2 (some .QUEEN)).2
    match recurse nb alpha beta with
    | none => none
    | some v =>
      let max_eval' := score_max max_eval v
      let alpha' := score_max alpha v
      if score_le beta alpha' then some max_eval'
      else ab_max_loop recurse b rest max_eval' alpha' beta

/-- One minimizing sibling loop of ChessAI._minimax (ai.py lines
179-190): updates min_eval and beta, breaking when beta <= alpha. -/
def ab_min_loop (recurse : Board → Score → Score → Option Score)
    (b : Board) : List MoveT → Score → Score → Score → Option Score
  | [], min_eval, _, _ => some min_eval
  | m :: rest, min_eval, alpha, beta =>
    let nb := (make_move_copy b m.1 m.2.1 m.2.2.1 m.2.2.2 (some .QUEEN)).2
    match recurse nb alpha beta with
    | none => none
    | some v =>
      let min_eval' := if score_le v min_eval then v else min_eval
      let beta' := if score_le v beta then v else beta
      if score_le beta' alpha then some min_eval'
      else ab_min_loop recurse b rest min_eval' alpha beta'

/-- ChessAI._minimax (ai.py lines 123-190): leaf evaluation at depth 0;
-inf/+inf for checkmate and 0 for stalemate when no legal moves exist;
move ordering near the root (depth >= self.depth - 2); alpha-beta
recursion otherwise. -/
def minimax (ai : ChessAI) : Nat → Board → Score → Score → Bool → Option Score
  | 0, b, _, _, _ => (evaluate b ai.color).map Score.fin
  | d + 1, b, alpha, beta, maximizing =>
    let current_color := if maximizing then ai.color else opponent ai.color
    match get_all_moves b current_color with
    | none => none
    | some moves =>
      if moves.isEmpty then
        match is_in_check b current_color with
        | none => none
        | some chk =>
          some (if chk then (if maximizing then Score.negInf else Score.posInf)
            else Score.fin 0)
      else
        match (if ((d + 1 : Nat) : Int) ≥ ai.depth - 2 then order_moves b moves
            else some moves) with
        | none => none
        | some moves2 =>
          if maximizing then
            ab_max_loop (fun nb a bb => minimax ai d nb a bb false) b moves2
              Score.negInf alpha beta
          else
            ab_min_loop (fun nb a bb => minimax ai d nb a bb true) b moves2
              Score.posInf alpha beta

/-- The root loop of ChessAI._search_at_depth (ai.py lines 76-91):
tracks best_move / best_value, updates alpha, breaks on beta <= alpha. -/
def search_root_loop (recurse : Board → Score → Score → Option Score)
    (b : Board) : List MoveT → Option MoveT → Score → Score → Score →
    Option (Option MoveT)
  | [], best, _, _, _ => some best
  | m :: rest, best, best_value, alpha, beta =>
    let nb := (make_move_copy b m.1 m.2.1 m.2.2.1 m.2.2.2 (some .QUEEN)).2
    match recurse nb alpha beta with
    | none => none
    | some v =>
      let p := if score_lt best_value v then (some m, v) else (best, best_value)
      let alpha' := score_max alpha p.2
      if score_le beta alpha' then some p.1
      else search_root_loop recurse b rest p.1 p.2 alpha' beta

/-- ChessAI._search_at_depth (ai.py lines 64-91): conditional reorder,
then the alpha-beta root loop at the given depth. -/
def search_at_depth (ai : ChessAI) (b : Board) (moves : List MoveT)
    (depth : Nat) : Option (Option MoveT) :=
  match (if ((depth : Int) = ai.depth) ∨ moves.length > 1
      then order_moves b moves else some moves) with
  | none => none
  | some moves2 =>
    search_root_loop (fun nb a bb => minimax ai (depth - 1) nb a bb false)
      b moves2 none Score.negInf Score.negInf Score.posInf

/-- ChessAI._iterative_deepening (ai.py lines 48-62): search at depths
1..self.depth, moving each pass's best move to the front. -/
def iterative_deepening (ai : ChessAI) (b : Board) (moves0 : List MoveT) :
    Option (Option MoveT) :=
  match (List.range ai.depth.toNat).foldlM
      (fun (st : Option MoveT × List MoveT) i =>
        match search_at_depth ai b st.2 (i + 1) with
        | none => none
        | some result =>
          match result with
          | some m =>
            some (some m, if m ∈ st.2 then m :: st.2.erase m else st.2)
          | none => some st)
      (none, moves0) with
  | none => none
  | some st => some st.1

/-- ChessAI.get_best_move (ai.py lines 25-46): None when it is not the
engine's turn or no legal move exists; iterative deepening for depth >=
2, otherwise a single fixed-depth search. -/
def get_best_move (ai : ChessAI) (b : Board) : Option (Option MoveT) :=
  if b.current_turn ≠ ai.color then some none
  else
    match get_all_moves b ai.color with
    | none => none
    | some moves =>
      if moves.isEmpty then some none
      else if ai.depth ≥ 2 then iterative_deepening ai b moves
      else search_at_depth ai b moves ai.depth.toNat

/-! ## Concrete positions -/

/-- An unmoved piece, as produced by Piece.__init__. -/
def mk (t : PieceType) (c : Color) : Option Piece :=
  some { type := t, color := c, has_moved := false }

/-- A rank of eight empty squares. -/
def empty_row : List (Option Piece) := List.replicate 8 none

/-- A back rank (board.py lines 33-36). -/
def back_row (c : Color) : List (Option Piece) :=
  [mk .ROOK c, mk .KNIGHT c, mk .BISHOP c, mk .QUEEN c,
   mk .KING c, mk .BISHOP c, mk .KNIGHT c, mk .ROOK c]

/-- A rank of pawns. -/
def pawn_row (c : Color) : List (Option Piece) := List.replicate 8 (mk .PAWN c)

/-- Board.__init__ + Board._initialize_board (board.py lines 12-40): the
standard initial position, White to move, full castling rights, no en
passant target, empty history. -/
def initial_board : Board :=
  { grid := [back_row .BLACK, pawn_row .BLACK, empty_row, empty_row,
             empty_row, empty_row, pawn_row .WHITE, back_row .WHITE]
    current_turn := .WHITE
    move_history := []
    en_passant_target := none
    castle_w := (true, true)
    castle_b := (true, true) }

/-- A board with only the unmoved white king on e1 and the unmoved white
rook on h1, full castling rights: the configuration in which the spec
says the king generator offers the kingside castling destination. -/
def castle_probe_board : Board :=
  { grid := [empty_row, empty_row, empty_row, empty_row,
             empty_row, empty_row, empty_row,
             [none, none, none, none, mk .KING .WHITE, none, none,
              mk .ROOK .WHITE]]
    current_turn := .WHITE
    move_history := []
    en_passant_target := none
    castle_w := (true, true)
    castle_b := (true, true) }

/-- Black pawn on d7, White pawn (already moved) on e5, Black to move:
the position one ply before Black's double-step d7-d5. -/
def ep_base_board : Board :=
  { grid := [empty_row,
             [none, none, none, mk .PAWN .BLACK, none, none, none, none],
             empty_row,
             [none, none, none, none,
              some { type := .PAWN, color := .WHITE, has_moved := true },
              none, none, none],
             empty_row, empty_row, empty_row, empty_row]
    current_turn := .BLACK
    move_history := []
    en_passant_target := none
    castle_w := (true, true)
    castle_b := (true, true) }

/-- The position one ply after Black's double-step d7-d5 (reached through
the clone/apply path): en_passant_target = (2, 3), White to move, White
pawn on e5 adjacent to the black pawn on d5. -/
def ep_board : Board := apply_move_directly ep_base_board 1 3 3 3 none

/-- A board holding only a white pawn on d5 (square (3, 3), one of the
four central squares): every evaluator component terminates here and the
center-control helper yields a nonzero score. -/
def eval_probe_board : Board :=
  { grid := [empty_row, empty_row, empty_row,
             [none, none, none,
              some { type := .PAWN, color := .WHITE, has_moved := true },
              none, none, none, none],
             empty_row, empty_row, empty_row, empty_row]
    current_turn := .WHITE
    move_history := []
    en_passant_target := none
    castle_w := (true, true)
    castle_b := (true, true) }

/-- Monotone transition between two castling-rights pairs: a component
that is true afterwards was already true before (rights are never
reinstated). -/
def rights_mono (old new : Bool × Bool) : Prop :=
  (new.1 = true → old.1 = true) ∧ (new.2 = true → old.2 = true)

/-! ## Theorems -/

theorem rights_mono_refl (r : Bool × Bool) : rights_mono r r :=
  ⟨fun h => h, fun h => h⟩

theorem rights_mono_trans {a b c : Bool × Bool} (h1 : rights_mono a b)
    (h2 : rights_mono b c) : rights_mono a c :=
  ⟨fun h => h1.1 (h2.1 h), fun h => h1.2 (h2.2 h)⟩

theorem rights_mono_update_mover (p : Piece) (fc : Int) (r : Bool × Bool) :
    rights_mono r (update_rights_for_mover p fc r) := by
  unfold update_rights_for_mover
  split_ifs <;> exact ⟨by simp_all, by simp_all⟩

theorem rights_mono_update_captured (cap : Option Piece) (tc : Int)
    (r : Bool × Bool) : rights_mono r (update_rights_for_captured cap tc r) := by
  rcases cap with _ | cp
  · exact rights_mono_refl r
  · unfold update_rights_for_captured
    rcases r with ⟨r1, r2⟩
    constructor <;> intro h <;>
      (by_cases hcp : cp.type = PieceType.ROOK <;>
        by_cases h7 : tc = 7 <;> by_cases h0 : tc = 0 <;> simp_all)

theorem castling_rights_set (b : Board) (col : Color) (r : Bool × Bool)
    (c : Color) :
    castling_rights (set_castling_rights b col r) c =
      if c = col then r else castling_rights b c := by
  cases col <;> cases c <;> simp [set_castling_rights, castling_rights]

theorem rights_mono_apply_mover (b : Board) (p : Piece) (fc : Int)
    (c : Color) :
    rights_mono (castling_rights b c)
      (castling_rights (apply_mover_rights b p fc) c) := by
  unfold apply_mover_rights
  rw [castling_rights_set]
  split_ifs with h
  · subst h; exact rights_mono_update_mover p fc _
  · exact rights_mono_refl _

theorem rights_mono_apply_captured (b : Board) (cap : Option Piece)
    (tc : Int) (c : Color) :
    rights_mono (castling_rights b c)
      (castling_rights (apply_captured_rights b cap tc) c) := by
  unfold apply_captured_rights
  rcases cap with _ | cp
  · exact rights_mono_refl _
  · rw [castling_rights_set]
    split_ifs with h
    · subst h; exact rights_mono_update_captured _ tc _
    · exact rights_mono_refl _

theorem rights_mono_outer (X : Board) (g : List (List (Option Piece)))
    (t : Color) (hist : List (Int × Int × Int × Int × Option Piece))
    (e : Option (Int × Int)) (c : Color) :
    castling_rights (Board.mk g t hist e X.castle_w X.castle_b) c =
      castling_rights X c := by
  cases c <;> rfl

theorem rights_mono_apply_move_directly (b : Board)
    (fr fc tr tc : Int) (promo : Option PieceType) (c : Color) :
    rights_mono (castling_rights b c)
      (castling_rights (apply_move_directly b fr fc tr tc promo) c) := by
  unfold apply_move_directly
  cases h : cell b.grid fr fc
  · exact rights_mono_refl _
  · exact rights_mono_apply_mover _ _ _ c

theorem rights_mono_make_move_apply (b : Board) (piece : Piece)
    (fr fc tr tc : Int) (promo : Option PieceType) (c : Color) :
    rights_mono (castling_rights b c)
      (castling_rights (make_move_apply b piece fr fc tr tc promo) c) := by
  unfold make_move_apply
  dsimp only
  rw [rights_mono_outer]
  refine rights_mono_trans ?_ (rights_mono_apply_captured _ _ _ c)
  exact rights_mono_apply_mover _ _ _ c

theorem cell_some_valid (g : List (List (Option Piece))) (r c : Int)
    (p : Piece) (h : cell g r c = some p) :
    0 ≤ r ∧ r < 8 ∧ 0 ≤ c ∧ c < 8 := by
  unfold cell at h
  by_cases hv : is_valid_position r c
  · exact hv
  · rw [if_neg hv] at h
    exact Option.noConfusion h

theorem step_moves_spec (b : Board) (row col : Int) (color : Color)
    (offs : List (Int × Int)) (d : Int × Int)
    (hd : d ∈ step_moves b row col color offs) :
    is_valid_position d.1 d.2 ∧
      ∀ q, cell b.grid d.1 d.2 = some q → q.color ≠ color := by
  unfold step_moves at hd
  rw [List.mem_filterMap] at hd
  obtain ⟨a, _, hfa⟩ := hd
  dsimp only at hfa
  by_cases hv : is_valid_position (row + a.1) (col + a.2)
  · rw [if_pos hv] at hfa
    cases hc : cell b.grid (row + a.1) (col + a.2) with
    | none =>
      rw [hc] at hfa
      injection hfa with hfa
      subst hfa
      refine ⟨hv, ?_⟩
      intro q hq
      dsimp only at hq
      rw [hc] at hq
      exact Option.noConfusion hq
    | some t =>
      rw [hc] at hfa
      dsimp only at hfa
      split_ifs at hfa with ht
      injection hfa with hfa
      subst hfa
      refine ⟨hv, ?_⟩
      intro q hq
      dsimp only at hq
      rw [hc] at hq
      injection hq with hq
      subst hq
      exact ht
  · rw [if_neg hv] at hfa
    exact Option.noConfusion hfa

theorem ray_go_spec (b : Board) (color : Color) (row col dr dc : Int) :
    ∀ (k : Nat) (i : Int) (d : Int × Int),
      d ∈ ray_go b color row col dr dc k i →
      is_valid_position d.1 d.2 ∧
        ∀ q, cell b.grid d.1 d.2 = some q → q.color ≠ color := by
  intro k
  induction k with
  | zero =>
    intro i d hd
    exact absurd hd (List.not_mem_nil d)
  | succ n ih =>
    intro i d hd
    unfold ray_go at hd
    dsimp only at hd
    by_cases hv : is_valid_position (row + dr * i) (col + dc * i)
    · rw [if_pos hv] at hd
      cases hc : cell b.grid (row + dr * i) (col + dc * i) with
      | none =>
        rw [hc] at hd
        rcases List.mem_cons.mp hd with e1 | e2
        · subst e1
          refine ⟨hv, ?_⟩
          intro q hq
          dsimp only at hq
          rw [hc] at hq
          exact Option.noConfusion hq
        · exact ih (i + 1) d e2
      | some t =>
        rw [hc] at hd
        dsimp only at hd
        split_ifs at hd with ht
        · have e1 := List.mem_singleton.mp hd
          subst e1
          refine ⟨hv, ?_⟩
          intro q hq
          dsimp only at hq
          rw [hc] at hq
          injection hq with hq
          subst hq
          exact ht
        · exact absurd hd (List.not_mem_nil d)
    · rw [if_neg hv] at hd
      exact absurd hd (List.not_mem_nil d)

theorem get_rook_moves_spec (b : Board) (row col : Int) (color : Color)
    (d : Int × Int) (hd : d ∈ get_rook_moves b row col color) :
    is_valid_position d.1 d.2 ∧
      ∀ q, cell b.grid d.1 d.2 = some q → q.color ≠ color := by
  unfold get_rook_moves at hd
  rw [List.mem_flatMap] at hd
  obtain ⟨dir, _, hdir⟩ := hd
  exact ray_go_spec b color row col dir.1 dir.2 7 1 d hdir

theorem get_bishop_moves_spec (b : Board) (row col : Int) (color : Color)
    (d : Int × Int) (hd : d ∈ get_bishop_moves b row col color) :
    is_valid_position d.1 d.2 ∧
      ∀ q, cell b.grid d.1 d.2 = some q → q.color ≠ color := by
  unfold get_bishop_moves at hd
  rw [List.mem_flatMap] at hd
  obtain ⟨dir, _, hdir⟩ := hd
  exact ray_go_spec b color row col dir.1 dir.2 7 1 d hdir

theorem get_pawn_moves_spec (b : Board) (row col : Int) (color : Color)
    (hc0 : 0 ≤ col) (hc8 : col < 8) (d : Int × Int)
    (hd : d ∈ get_pawn_moves b row col color) :
    is_valid_position d.1 d.2 ∧
      ∀ q, cell b.grid d.1 d.2 = some q → q.color ≠ color := by
  have hcase :
      ((if color = Color.WHITE then (-1 : Int) else 1) = -1 ∧
        (if color = Color.WHITE then (6 : Int) else 1) = 6) ∨
      ((if color = Color.WHITE then (-1 : Int) else 1) = 1 ∧
        (if color = Color.WHITE then (6 : Int) else 1) = 1) := by
    by_cases hw : color = Color.WHITE <;> simp [hw]
  unfold get_pawn_moves at hd
  try dsimp only at hd
  revert hd
  generalize hD : (if color = Color.WHITE then (-1 : Int) else 1) = D
  generalize hS : (if color = Color.WHITE then (6 : Int) else 1) = S
  rw [hD, hS] at hcase
  intro hd
  rw [List.mem_append] at hd
  rcases hd with hf | hcap
  · split_ifs at hf with h1 h2
    · rcases List.mem_cons.mp hf with e1 | e2
      · subst e1
        refine ⟨⟨h1.1, h1.2.1, hc0, hc8⟩, ?_⟩
        intro q hq
        dsimp only at hq
        rw [h1.2.2] at hq
        exact Option.noConfusion hq
      · have e3 := List.mem_singleton.mp e2
        subst e3
        refine ⟨?_, ?_⟩
        · unfold is_valid_position
          dsimp only
          rcases hcase with ⟨hD1, hS1⟩ | ⟨hD1, hS1⟩ <;> subst hD1 <;>
            subst hS1 <;> omega
        · intro q hq
          dsimp only at hq
          rw [h2.2] at hq
          exact Option.noConfusion hq
    · rcases List.mem_cons.mp hf with e1 | e2
      · subst e1
        refine ⟨⟨h1.1, h1.2.1, hc0, hc8⟩, ?_⟩
        intro q hq
        dsimp only at hq
        rw [h1.2.2] at hq
        exact Option.noConfusion hq
      · exact absurd e2 (List.not_mem_nil d)
    · exact absurd hf (List.not_mem_nil d)
  · rw [List.mem_filterMap] at hcap
    obtain ⟨dc, _, hfa⟩ := hcap
    try dsimp only at hfa
    by_cases hv : 0 ≤ row + D ∧ row + D < 8 ∧ 0 ≤ col + dc ∧ col + dc < 8
    · rw [if_pos hv] at hfa
      cases hc : cell b.grid (row + D) (col + dc) with
      | none =>
        rw [hc] at hfa
        exact Option.noConfusion hfa
      | some t =>
        rw [hc] at hfa
        dsimp only at hfa
        split_ifs at hfa with ht
        injection hfa with hfa
        subst hfa
        refine ⟨⟨hv.1, hv.2.1, hv.2.2.1, hv.2.2.2⟩, ?_⟩
        intro q hq
        dsimp only at hq
        rw [hc] at hq
        injection hq with hq
        subst hq
        exact ht
    · rw [if_neg hv] at hfa
      exact Option.noConfusion hfa

/-- C10: every destination produced by the pseudo-legal move generator
for an occupied square is on the board and is not occupied by a piece of
the moving piece's own color. -/
theorem pseudo_moves_in_bounds_not_own :
    ∀ (b : Board) (row col : Int) (p : Piece),
      cell b.grid row col = some p →
      ∀ d ∈ get_moves b row col,
        is_valid_position d.1 d.2 ∧
          ∀ q, cell b.grid d.1 d.2 = some q → q.color ≠ p.color := by
  intro b row col p hp d hd
  have hb := cell_some_valid b.grid row col p hp
  unfold get_moves at hd
  rw [hp] at hd
  dsimp only at hd
  obtain ⟨ptype, pcolor, pmoved⟩ := p
  dsimp only at hd
  cases ptype <;> dsimp only at hd
  case PAWN =>
    exact get_pawn_moves_spec b row col pcolor hb.2.2.1 hb.2.2.2 d hd
  case ROOK =>
    exact get_rook_moves_spec b row col pcolor d hd
  case KNIGHT =>
    exact step_moves_spec b row col pcolor _ d hd
  case BISHOP =>
    exact get_bishop_moves_spec b row col pcolor d hd
  case QUEEN =>
    unfold get_queen_moves at hd
    rw [List.mem_append] at hd
    rcases hd with h1 | h2
    · exact get_rook_moves_spec b row col pcolor d h1
    · exact get_bishop_moves_spec b row col pcolor d h2
  case KING =>
    exact step_moves_spec b row col pcolor _ d hd

/-- Witness: pseudo_moves_in_bounds_not_own at the white knight on g1 of
the initial board and its destination f3. -/
theorem pseudo_moves_in_bounds_not_own_witness :
    is_valid_position 5 5 ∧
      (∀ q, cell initial_board.grid 5 5 = some q → q.color ≠ Color.WHITE) :=
  pseudo_moves_in_bounds_not_own initial_board 7 6
    { type := PieceType.KNIGHT, color := Color.WHITE, has_moved := false }
    (by decide) (5, 5) (by decide)

/-- C1: make_move is claimed never to raise, reporting every failure as
a boolean False with the state unchanged.  In fact on the initial board
the legal move e2-e4 (and any move reaching the legality check) raises
TypeError, because is_legal_move → is_in_check calls
MoveGenerator.get_moves with the unsupported skip_castling keyword;
the raise is modelled as none. -/
theorem make_move_initial_e2e4_raises :
    make_move initial_board 6 4 4 4 none = none := by decide

/-- C2: alpha-beta search is claimed to select the same move as plain
minimax at equal depth.  The search never selects a move at all: already
at the standard initial position get_best_move raises TypeError (none)
inside get_all_moves → is_legal_move → is_in_check, before any minimax
recursion can run. -/
theorem get_best_move_initial_raises :
    get_best_move (chess_ai_init 1 Color.WHITE) initial_board = none := by
  decide

/-- C3: the king move generator is claimed to offer the castling
destinations (columns 2 and 6) when a skip-castling flag is false.  On a
board with the unmoved white king on e1, the unmoved white rook on h1
and full castling rights, get_moves returns only the five one-square
neighbours — no castling destination exists and no flag exists — and the
square-attacked probe (which passes skip_castling=True) raises TypeError
(none). -/
theorem king_generator_never_offers_castling :
    get_moves castle_probe_board 7 4 =
      [(6, 3), (6, 4), (6, 5), (7, 3), (7, 5)] ∧
    (7, 6) ∉ get_moves castle_probe_board 7 4 ∧
    (7, 2) ∉ get_moves castle_probe_board 7 4 ∧
    is_square_under_attack castle_probe_board 0 0 Color.WHITE = none := by
  decide

/-- C4: get_all_moves(White) on the initial position is claimed to have
exactly 20 entries; instead it raises TypeError (none) at the first
legality check, for the skip_castling reason above. -/
theorem get_all_moves_initial_raises :
    get_all_moves initial_board Color.WHITE = none := by decide

/-- C5: en passant capture is claimed to be accepted exactly one ply
after the adjacent double-step.  In ep_board (reached by Black's d7-d5
double-step, en_passant_target = (2,3), white pawn on e5) the capture
make_move(3,4,2,3) is rejected with False: the pawn generator never
emits the diagonal onto the empty en-passant target square and make_move
requires the destination to be among the generated moves. -/
theorem en_passant_capture_rejected :
    ep_board.en_passant_target = some (2, 3) ∧
    ep_board.current_turn = Color.WHITE ∧
    (2, 3) ∉ get_moves ep_board 3 4 ∧
    make_move ep_board 3 4 2 3 none = some (false, ep_board) := by
  decide

/-- C6 counterexample: evaluate is claimed to be the sum of material,
mobility, center control and king safety.  On eval_probe_board (a lone
white pawn on the central square d5) every component terminates:
material 100, mobility 1 (either variant), center control 2, king
safety -1000, yet evaluate returns 101 ≠ 100 + 1 + 2 + (-1000); so
neither mobility variant makes the claimed sum match. -/
theorem evaluate_omits_center_control_and_king_safety :
    evaluate eval_probe_board Color.WHITE = some 101 ∧
    material_balance eval_probe_board Color.WHITE = 100 ∧
    piece_mobility eval_probe_board Color.WHITE = some 1 ∧
    get_all_moves eval_probe_board Color.WHITE = some [(3, 3, 2, 3)] ∧
    center_control eval_probe_board Color.WHITE = 2 ∧
    king_safety eval_probe_board Color.WHITE = some (-1000) ∧
    (101 : Int) ≠ 100 + 1 + 2 + (-1000) := by
  decide

/-- C6 (amended): whenever its legal-move and check computations
complete, evaluate(state, color) returns exactly material balance plus
the own-legal-move count minus 50 when in check; center control and the
remaining king-safety terms are not part of the sum. -/
theorem evaluate_eq_material_plus_mobility_minus_check_penalty :
    ∀ (b : Board) (c : Color) (ms : List MoveT) (chk : Bool),
      get_all_moves b c = some ms → is_in_check b c = some chk →
      evaluate b c = some (material_balance b c + (ms.length : Int) -
        (if chk then 50 else 0)) := by
  intro b c ms chk h1 h2
  unfold evaluate
  rw [h1, h2]

/-- Witness: the amended C6 theorem applied to eval_probe_board. -/
theorem evaluate_eq_material_plus_mobility_minus_check_penalty_witness :
    evaluate eval_probe_board Color.WHITE =
      some (material_balance eval_probe_board Color.WHITE +
        (([((3 : Int), (3 : Int), (2 : Int), (3 : Int))] : List MoveT).length : Int) -
        (if false then 50 else 0)) :=
  evaluate_eq_material_plus_mobility_minus_check_penalty eval_probe_board
    Color.WHITE [(3, 3, 2, 3)] false (by decide) (by decide)

/-- C7: make_move_copy works on a deep copy: for every state and move
the receiver's piece grid and side to move are unchanged by the call,
and the returned board is the move applied (by _apply_move_directly) to
the input state. -/
theorem make_move_copy_preserves_receiver :
    ∀ (b : Board) (fr fc tr tc : Int) (promo : Option PieceType),
      (make_move_copy b fr fc tr tc promo).1.grid = b.grid ∧
      (make_move_copy b fr fc tr tc promo).1.current_turn = b.current_turn ∧
      (make_move_copy b fr fc tr tc promo).2 =
        apply_move_directly b fr fc tr tc promo := by
  intro b fr fc tr tc promo
  exact ⟨rfl, rfl, rfl⟩

/-- C8: castling rights are monotone — both on the clone/apply path
(make_move_copy / _apply_move_directly) and on every non-raising
make_move call, no castling-rights component ever goes from false back
to true. -/
theorem castling_rights_monotone :
    (∀ (b : Board) (fr fc tr tc : Int) (promo : Option PieceType) (c : Color),
      rights_mono (castling_rights b c)
        (castling_rights (make_move_copy b fr fc tr tc promo).2 c)) ∧
    (∀ (b : Board) (fr fc tr tc : Int) (promo : Option PieceType)
      (res : Bool) (b' : Board),
      make_move b fr fc tr tc promo = some (res, b') →
      ∀ c, rights_mono (castling_rights b c) (castling_rights b' c)) := by
  constructor
  · intro b fr fc tr tc promo c
    exact rights_mono_apply_move_directly b fr fc tr tc promo c
  · intro b fr fc tr tc promo res b' h c
    unfold make_move at h
    split at h
    · injection h with h1
      injection h1 with _ h2
      subst h2
      exact rights_mono_refl _
    · split at h
      · injection h with h1
        injection h1 with _ h2
        subst h2
        exact rights_mono_refl _
      · split at h
        · injection h with h1
          injection h1 with _ h2
          subst h2
          exact rights_mono_refl _
        · split at h
          · injection h with h1
            injection h1 with _ h2
            subst h2
            exact rights_mono_refl _
          · split at h
            · exact Option.noConfusion h
            · injection h with h1
              injection h1 with _ h2
              subst h2
              exact rights_mono_refl _
            · injection h with h1
              injection h1 with _ h2
              subst h2
              exact rights_mono_make_move_apply _ _ _ _ _ _ _ c

/-- Witness: castling_rights_monotone applied to a concrete rejected
make_move call on the initial board. -/
theorem castling_rights_monotone_witness :
    (castling_rights initial_board Color.WHITE).1 = true :=
  (castling_rights_monotone.2 initial_board 8 0 0 0 none false initial_board
    (by decide) Color.WHITE).1 (by decide)

/-- C9: the ChessAI constructor clamps every integer depth argument to
max(1, depth), so the configured search depth is always at least 1. -/
theorem chess_ai_depth_at_least_one :
    ∀ (d : Int) (c : Color),
      (chess_ai_init d c).depth = max 1 d ∧ 1 ≤ (chess_ai_init d c).depth := by
  intro d c
  exact ⟨rfl, le_max_left 1 d⟩

end Checkm8
